import Mathlib

/-!
# AleoRPC2Prometheus: the scrape handler of `server.go`

A shallow embedding of `server.go`: the status classification `getStatus`, the
self-peer counter `getSelfSegments` (with the regular expression it compiles),
the decoding of the JSON-RPC envelope into `RPCNodestateResponse`, and the
`/metrics` handler that overwrites the seven gauges.

Conventions.
* A Go `string` is a Lean `String`.  Every string the handler sees comes out of
  `json.Unmarshal`, which only produces valid UTF-8, so a string is its sequence
  of runes.
* Go `int` is the 64-bit signed integer of the platforms the exporter runs on.
* A `float64` is represented by the exact number it denotes.  Every float in
  the program is either one of the constants `1 .. 5` or the conversion of an
  `int`, so all of them are integers and `Float64 := Int`.
* The library calls of the handler (`http.Post`, `ioutil.ReadAll`,
  `json.Unmarshal`, `regexp`) are embedded by their documented behaviour on the
  inputs the handler gives them.
* Scrapes run one after the other; interleavings of concurrent handler runs
  are not modelled.
-/

namespace AleoRPC2Prometheus

/-! ## float64 values and the conversion `float64(int)` -/

/-- The exact value denoted by a `float64` that holds an integer. -/
abbrev Float64 := Int

/-- Number of low bits that do not fit in the 53-bit significand of a
`float64`: how often `a` is halved until it is below `2^53`. -/
def excessBits : Nat → Nat → Nat
  | 0, _ => 0
  | fuel + 1, a => if a < 2 ^ 53 then 0 else 1 + excessBits fuel (a / 2)

/-- Round a magnitude to 53 significant bits, ties to even (IEEE 754
round-to-nearest-even, the rounding of an integer to float conversion). -/
def roundMagnitude (a : Nat) : Nat :=
  let e := excessBits 64 a
  let q := a / 2 ^ e
  let r := a % 2 ^ e
  let q1 := if 2 * r > 2 ^ e ∨ (2 * r = 2 ^ e ∧ q % 2 = 1) then q + 1 else q
  q1 * 2 ^ e

/-- The Go conversion `float64(n)` of an `int`. -/
def float64 (n : Int) : Float64 :=
  if n < 0 then -((roundMagnitude n.natAbs : Nat) : Int) else ((roundMagnitude n.natAbs : Nat) : Int)

/-! ## `getStatus` -/

/-- Go `getStatus`: a `switch` on the status string. -/
def getStatus (status : String) : Float64 :=
  if status = "Peering" then 1
  else if status = "Syncing" then 2
  else if status = "Ready" then 3
  else if status = "Mining" then 4
  else 5

/-! ## The regular expression of `getSelfSegments` -/

/-- A one-rune matcher of the regular expression syntax. -/
inductive CharClass
  | lit (c : Char)
  | anyCharNotNL
  deriving DecidableEq, Repr

/-- Whether a rune is accepted: a literal accepts itself, `.` (without the
`s` flag) accepts every rune but the newline. -/
def CharClass.accepts : CharClass → Char → Bool
  | .lit c, x => x == c
  | .anyCharNotNL, x => x != '\n'

/-- The instructions of a compiled pattern, for the fragment of the syntax the
program uses: `^`, a one-rune matcher, and a starred one-rune matcher. -/
inductive Inst
  | beginText
  | one (k : CharClass)
  | star (k : CharClass)
  deriving DecidableEq, Repr

/-- The one-rune matcher a pattern character stands for, `none` for the
metacharacters outside the modelled fragment. -/
def classOf (c : Char) : Option CharClass :=
  if c = '.' then some .anyCharNotNL
  else if c ∈ ['\\', '+', '?', '(', ')', '[', ']', '{', '}', '|', '$', '*', '^'] then none
  else some (.lit c)

/-- Go `regexp.Compile` on the modelled fragment (no flags: `^` is the
beginning of the text and `.` excludes the newline). -/
def compile : List Char → Option (List Inst)
  | [] => some []
  | '^' :: rest => (compile rest).map (fun is => Inst.beginText :: is)
  | c :: '*' :: rest =>
    match classOf c with
    | some k => (compile rest).map (fun is => Inst.star k :: is)
    | none => none
  | c :: rest =>
    match classOf c with
    | some k => (compile rest).map (fun is => Inst.one k :: is)
    | none => none

/-- Go `regexp.MustCompile`; the pattern of the program compiles, so the
panic branch is not reached. -/
def MustCompile (pattern : String) : List Inst :=
  (compile pattern.data).getD []

/-- The greedy loop of a starred matcher followed by the continuation `k`:
stop here, or consume one accepted rune and go on. -/
def starLoop (cls : CharClass) (k : Bool → List Char → Bool) : Bool → List Char → Bool
  | atStart, [] => k atStart []
  | atStart, c :: s => k atStart (c :: s) || (cls.accepts c && starLoop cls k false s)

/-- Whether some match of the program starts at the current position;
`atStart` tells whether the position is the beginning of the text. -/
def matchHere : List Inst → Bool → List Char → Bool
  | [], _, _ => true
  | .beginText :: rest, atStart, s => atStart && matchHere rest atStart s
  | .one _ :: _, _, [] => false
  | .one k :: rest, _, c :: s => k.accepts c && matchHere rest false s
  | .star k :: rest, atStart, s => starLoop k (fun a t => matchHere rest a t) atStart s

/-- Unanchored search: a match may start at any position of the text. -/
def searchFrom (prog : List Inst) : Bool → List Char → Bool
  | atStart, [] => matchHere prog atStart []
  | atStart, c :: s => matchHere prog atStart (c :: s) || searchFrom prog false s

/-- Go `(*Regexp).MatchString`: whether the string contains any match. -/
def MatchString (prog : List Inst) (s : String) : Bool :=
  searchFrom prog true s.data

/-! ## `getSelfSegments` -/

/-- Go `type peers []string`: a slice is `nil` or has a list of elements. -/
inductive peers
  | nil
  | slice (elems : List String)
  deriving DecidableEq, Repr

/-- The elements a `range` loop visits; none for a nil slice. -/
def peers.toList : peers → List String
  | .nil => []
  | .slice elems => elems

/-- Go `getSelfSegments`: compile the pattern, count the peers it matches,
convert the count to `float64`. -/
def getSelfSegments (connectPeers : peers) : Float64 :=
  let pat := MustCompile "^172.16.*"
  let count := connectPeers.toList.foldl
    (fun (count : Int) peer => if MatchString pat peer then count + 1 else count) 0
  float64 count

/-! ## The JSON values `json.Unmarshal` decodes

`json.Unmarshal` first checks the syntax of the body and then walks the value
it denotes.  The embedding starts from that value: a body is either text that
does not follow the JSON grammar or a JSON value, with the members of an object
in the order of the text and repeated names kept.  The syntax check also
refuses a value whose arrays and objects nest deeper than 10000. -/

/-- A JSON number literal: an integer literal with its value, or a literal
with a fraction or an exponent (kept as text). -/
inductive JNumber
  | integer (v : Int)
  | fractional (text : String)
  deriving DecidableEq, Repr

/-- A JSON value. -/
inductive JSON
  | null
  | bool (b : Bool)
  | number (n : JNumber)
  | string (s : String)
  | array (elems : List JSON)
  | object (members : List (String × JSON))

mutual
/-- How deep the arrays and objects of a JSON value nest: 0 for a scalar, one
more than its deepest element or member value for an array or an object. -/
def JSON.depth : JSON → Nat
  | .array elems => 1 + depthElems elems
  | .object ms => 1 + depthMembers ms
  | _ => 0
/-- The depth of the deepest element of an array. -/
def depthElems : List JSON → Nat
  | [] => 0
  | j :: js => max j.depth (depthElems js)
/-- The depth of the deepest member value of an object. -/
def depthMembers : List (String × JSON) → Nat
  | [] => 0
  | (_, j) :: ms => max j.depth (depthMembers ms)
end

/-- The nesting limit of the scanner of `encoding/json`: opening an array or
an object inside 10000 open ones is a syntax error. -/
def maxNestingDepth : Nat := 10000

/-- A response body as `json.Unmarshal` sees it: text that does not follow the
JSON grammar, or the JSON value the text denotes. -/
inductive Body
  | malformed (text : String)
  | wellFormed (v : JSON)

/-- The two errors of `json.Unmarshal`: `*json.SyntaxError` and
`*json.UnmarshalTypeError`. -/
inductive UnmarshalError
  | syntaxError
  | typeError
  deriving DecidableEq, Repr

/-- Go `type NodestateResult struct`. -/
structure NodestateResult where
  Status : String
  LatestBlockHeight : Int
  LatestCumulativeWeight : Int
  NumberOfConnectedPeers : Int
  NumberOfCandidatePeers : Int
  NumberOfConnectedSyncNodes : Int
  ConnectedPeers : peers
  deriving DecidableEq, Repr

/-- Go `type RPCNodestateResponse struct`. -/
structure RPCNodestateResponse where
  Result : NodestateResult
  deriving DecidableEq, Repr

/-- The zero value of `NodestateResult`. -/
def NodestateResult.zero : NodestateResult :=
  ⟨"", 0, 0, 0, 0, 0, .nil⟩

/-- The zero value `var rpc_result RPCNodestateResponse` starts from. -/
def RPCNodestateResponse.zero : RPCNodestateResponse :=
  ⟨NodestateResult.zero⟩

/-- The fields of `NodestateResult`, in declaration order. -/
inductive Field
  | Status
  | LatestBlockHeight
  | LatestCumulativeWeight
  | NumberOfConnectedPeers
  | NumberOfCandidatePeers
  | NumberOfConnectedSyncNodes
  | ConnectedPeers
  deriving DecidableEq, Repr

/-- The `json:"..."` tag of each field. -/
def Field.tag : Field → String
  | .Status => "status"
  | .LatestBlockHeight => "latest_block_height"
  | .LatestCumulativeWeight => "latest_cumulative_weight"
  | .NumberOfConnectedPeers => "number_of_connected_peers"
  | .NumberOfCandidatePeers => "number_of_candidate_peers"
  | .NumberOfConnectedSyncNodes => "number_of_connected_sync_nodes"
  | .ConnectedPeers => "connected_peers"

/-- All fields, in declaration order. -/
def Field.all : List Field :=
  [.Status, .LatestBlockHeight, .LatestCumulativeWeight, .NumberOfConnectedPeers,
   .NumberOfCandidatePeers, .NumberOfConnectedSyncNodes, .ConnectedPeers]

/-- Case folding of one rune as `encoding/json` compares member names: ASCII
letters fold to upper case, and the two non-ASCII runes whose simple fold is an
ASCII letter, U+017F (long s) and U+212A (Kelvin sign), fold to `S` and `K`.
Against an ASCII tag this is Unicode simple folding. -/
def foldRune (c : Char) : Char :=
  if 'a' ≤ c ∧ c ≤ 'z' then Char.ofNat (c.toNat - 32)
  else if c = Char.ofNat 0x17F then 'S'
  else if c = Char.ofNat 0x212A then 'K'
  else c

/-- Whether a member name selects the field with this tag: `encoding/json`
accepts an exact match and also a case-insensitive one. -/
def equalFold (tag key : String) : Bool :=
  tag.data.map foldRune == key.data.map foldRune

/-- The field of `NodestateResult` a member name selects, if any. -/
def fieldFor (key : String) : Option Field :=
  Field.all.find? (fun f => equalFold f.tag key)

/-- Decode a JSON value into a Go `string` holding `cur`: a string is stored,
`null` has no effect, anything else is a type error. -/
def decodeString (cur : String) : JSON → Except UnmarshalError String
  | .string s => .ok s
  | .null => .ok cur
  | _ => .error .typeError

/-- Decode a JSON value into a Go `int` holding `cur`: an integer literal in
the 64-bit range is stored, `null` has no effect, anything else (a literal
with fraction or exponent, a literal out of range, another type) is a type
error. -/
def decodeInt (cur : Int) : JSON → Except UnmarshalError Int
  | .number (.integer v) =>
    if -(2 ^ 63) ≤ v ∧ v < 2 ^ 63 then .ok v else .error .typeError
  | .null => .ok cur
  | _ => .error .typeError

/-- Decode the elements of a JSON array one by one into the backing array
`cur` of a slice: element `i` is decoded into the string stored at index `i`
(the empty string beyond what is stored). -/
def decodeElems (cur : List String) : List JSON → Except UnmarshalError (List String)
  | [] => .ok []
  | j :: js =>
    match decodeString (cur.headD "") j with
    | .error e => .error e
    | .ok x =>
      match decodeElems cur.tail js with
      | .error e => .error e
      | .ok xs => .ok (x :: xs)

/-- Decode a JSON value into a `peers` slice holding `cur`, whose backing array
still stores the strings `spare` beyond its length (left there by an earlier
member of the same name in the same body).  The empty array gives a fresh empty
slice; an array gives a non-nil slice of its elements, decoded into the backing
array, and leaves the rest of the backing array as spare; `null` gives the nil
slice; anything else is a type error. -/
def decodePeers (cur : peers) (spare : List String) :
    JSON → Except UnmarshalError (peers × List String)
  | .array [] => .ok (.slice [], [])
  | .array elems =>
    match decodeElems (cur.toList ++ spare) elems with
    | .error e => .error e
    | .ok xs => .ok (.slice xs, (cur.toList ++ spare).drop xs.length)
  | .null => .ok (.nil, [])
  | _ => .error .typeError

/-- Decode a member value into the selected field of `r`; `spare` is the spare
part of the backing array of `r.ConnectedPeers`. -/
def decodeField (r : NodestateResult) (spare : List String) (f : Field) (j : JSON) :
    Except UnmarshalError (NodestateResult × List String) :=
  match f with
  | .Status => (decodeString r.Status j).map (fun v => ({ r with Status := v }, spare))
  | .LatestBlockHeight =>
    (decodeInt r.LatestBlockHeight j).map (fun v => ({ r with LatestBlockHeight := v }, spare))
  | .LatestCumulativeWeight =>
    (decodeInt r.LatestCumulativeWeight j).map
      (fun v => ({ r with LatestCumulativeWeight := v }, spare))
  | .NumberOfConnectedPeers =>
    (decodeInt r.NumberOfConnectedPeers j).map
      (fun v => ({ r with NumberOfConnectedPeers := v }, spare))
  | .NumberOfCandidatePeers =>
    (decodeInt r.NumberOfCandidatePeers j).map
      (fun v => ({ r with NumberOfCandidatePeers := v }, spare))
  | .NumberOfConnectedSyncNodes =>
    (decodeInt r.NumberOfConnectedSyncNodes j).map
      (fun v => ({ r with NumberOfConnectedSyncNodes := v }, spare))
  | .ConnectedPeers =>
    (decodePeers r.ConnectedPeers spare j).map
      (fun v => ({ r with ConnectedPeers := v.1 }, v.2))

/-- Decode the members of an object into `r`, in order: a member whose name
selects a field is decoded into it, any other member is skipped.  A type error
makes `Unmarshal` return an error. -/
def decodeMembers (r : NodestateResult) (spare : List String) :
    List (String × JSON) → Except UnmarshalError (NodestateResult × List String)
  | [] => .ok (r, spare)
  | (key, j) :: ms =>
    match fieldFor key with
    | none => decodeMembers r spare ms
    | some f =>
      match decodeField r spare f j with
      | .error e => .error e
      | .ok r1 => decodeMembers r1.1 r1.2 ms

/-- Decode a JSON value into a `NodestateResult` holding `cur`: an object is
decoded member by member, `null` has no effect, anything else is a type
error. -/
def decodeNodestateResult (cur : NodestateResult) (spare : List String) :
    JSON → Except UnmarshalError (NodestateResult × List String)
  | .object ms => decodeMembers cur spare ms
  | .null => .ok (cur, spare)
  | _ => .error .typeError

/-- Decode the members of the envelope object: a member whose name selects the
only field, `Result` (tag `result`), is decoded into it, others are skipped. -/
def decodeEnvelope (v : RPCNodestateResponse) (spare : List String) :
    List (String × JSON) → Except UnmarshalError RPCNodestateResponse
  | [] => .ok v
  | (key, j) :: ms =>
    if equalFold "result" key then
      match decodeNodestateResult v.Result spare j with
      | .error e => .error e
      | .ok r => decodeEnvelope ⟨r.1⟩ r.2 ms
    else decodeEnvelope v spare ms

/-- Go `json.Unmarshal(body, &rpc_result)` where `rpc_result` holds `v` and
the backing array of its slice stores nothing beyond its length (the handler
passes a freshly zeroed value, whose slice is nil).  The syntax check comes
first: text off the grammar and values nested too deep are syntax errors, and
nothing is decoded. -/
def Unmarshal (body : Body) (v : RPCNodestateResponse) :
    Except UnmarshalError RPCNodestateResponse :=
  match body with
  | .malformed _ => .error .syntaxError
  | .wellFormed j =>
    if maxNestingDepth < j.depth then .error .syntaxError
    else
      match j with
      | .object ms => decodeEnvelope v [] ms
      | .null => .ok v
      | _ => .error .typeError

/-! ## The gauges and the `/metrics` handler -/

/-- The seven gauges of the `var ( ... )` block. -/
inductive Gauge
  | currentBlock
  | currentCumulativeWeight
  | currentStatus
  | currentConnectedPeers
  | currentSelfConnectedPeers
  | currentCandidatePeers
  | currentConnectedSyncNodes
  deriving DecidableEq, Repr

/-- The value each gauge holds. -/
structure Gauges where
  currentBlock : Float64
  currentCumulativeWeight : Float64
  currentStatus : Float64
  currentConnectedPeers : Float64
  currentSelfConnectedPeers : Float64
  currentCandidatePeers : Float64
  currentConnectedSyncNodes : Float64
  deriving DecidableEq, Repr

/-- The gauges as `prometheus.NewGauge` creates them: all zero. -/
def Gauges.initial : Gauges :=
  ⟨0, 0, 0, 0, 0, 0, 0⟩

/-- Go `(Gauge).Set`: overwrite the value of one gauge. -/
def Gauges.Set (g : Gauges) : Gauge → Float64 → Gauges
  | .currentBlock, v => { g with currentBlock := v }
  | .currentCumulativeWeight, v => { g with currentCumulativeWeight := v }
  | .currentStatus, v => { g with currentStatus := v }
  | .currentConnectedPeers, v => { g with currentConnectedPeers := v }
  | .currentSelfConnectedPeers, v => { g with currentSelfConnectedPeers := v }
  | .currentCandidatePeers, v => { g with currentCandidatePeers := v }
  | .currentConnectedSyncNodes, v => { g with currentConnectedSyncNodes := v }

/-- What `http.Post` hands back when it returns no error: the status code of
the response, which `http.Post` does not turn into an error whatever it is, and
the outcome of `ioutil.ReadAll(resp.Body)`. -/
structure Response where
  StatusCode : Nat
  ReadAll : Except String Body

/-- The steps of the handler that are visible outside it. -/
inductive Effect
  | log (message : String)
  | set (gauge : Gauge) (v : Float64)
  | serveHTTP
  deriving DecidableEq, Repr

/-- The `/metrics` handler: the steps it performs, in order, for the outcome of
`http.Post`.  Each error branch logs and returns. -/
def handler (post : Except String Response) : List Effect :=
  match post with
  | .error err => [.log ("Error getting response. " ++ err)]
  | .ok resp =>
    match resp.ReadAll with
    | .error err => [.log ("Error reading response. " ++ err)]
    | .ok body =>
      match Unmarshal body RPCNodestateResponse.zero with
      | .error _ => [.log "Unable to unmarshall"]
      | .ok rpc_result =>
        [ .set .currentStatus (getStatus rpc_result.Result.Status),
          .set .currentBlock (float64 rpc_result.Result.LatestBlockHeight),
          .set .currentCumulativeWeight (float64 rpc_result.Result.LatestCumulativeWeight),
          .set .currentConnectedPeers (float64 rpc_result.Result.NumberOfConnectedPeers),
          .set .currentSelfConnectedPeers (getSelfSegments rpc_result.Result.ConnectedPeers),
          .set .currentCandidatePeers (float64 rpc_result.Result.NumberOfCandidatePeers),
          .set .currentConnectedSyncNodes (float64 rpc_result.Result.NumberOfConnectedSyncNodes),
          .serveHTTP ]

/-- The gauges after one step. -/
def Effect.apply (g : Gauges) : Effect → Gauges
  | .log _ => g
  | .set gauge v => g.Set gauge v
  | .serveHTTP => g

/-- The gauges after a sequence of steps. -/
def run (g : Gauges) (effects : List Effect) : Gauges :=
  effects.foldl Effect.apply g

/-- One scrape: the gauges after the handler has run. -/
def scrape (g : Gauges) (post : Except String Response) : Gauges :=
  run g (handler post)

/-- A sequence of scrapes, one after the other. -/
def scrapes (g : Gauges) (posts : List (Except String Response)) : Gauges :=
  posts.foldl scrape g

/-- The result a scrape decodes when fetch and decode both succeed. -/
def decoded (post : Except String Response) : Option NodestateResult :=
  match post with
  | .error _ => none
  | .ok resp =>
    match resp.ReadAll with
    | .error _ => none
    | .ok body =>
      match Unmarshal body RPCNodestateResponse.zero with
      | .error _ => none
      | .ok rpc_result => some rpc_result.Result

/-- The gauge values a decoded result is mapped to. -/
def mapped (r : NodestateResult) : Gauges where
  currentBlock := float64 r.LatestBlockHeight
  currentCumulativeWeight := float64 r.LatestCumulativeWeight
  currentStatus := getStatus r.Status
  currentConnectedPeers := float64 r.NumberOfConnectedPeers
  currentSelfConnectedPeers := getSelfSegments r.ConnectedPeers
  currentCandidatePeers := float64 r.NumberOfCandidatePeers
  currentConnectedSyncNodes := float64 r.NumberOfConnectedSyncNodes

/-! ## The readings of the specification, for comparison with the code -/

/-- The specification's reading of a self peer: the string begins with the
literal seven characters `172.16.` -/
def beginsWithLiteral (p : String) : Bool :=
  "172.16.".data.isPrefixOf p.data

/-- The pattern as written, spelled out: at least six characters, `172`, then
one character that is not a newline, then `16`. -/
def matchesAsWritten (p : String) : Bool :=
  match p.data with
  | c0 :: c1 :: c2 :: c3 :: c4 :: c5 :: _ =>
    c0 == '1' && c1 == '7' && c2 == '2' && c3 != '\n' && c4 == '1' && c5 == '6'
  | _ => false

/-- Whether a JSON value is of the JSON type the field expects: a string for
`status`, an array of strings for `connected_peers`, an integer literal within
the range of `int` for the five counters. -/
def wellTyped : Field → JSON → Bool
  | .Status, j =>
    match j with
    | .string _ => true
    | _ => false
  | .ConnectedPeers, j =>
    match j with
    | .array elems => elems.all (fun e => match e with
      | .string _ => true
      | _ => false)
    | _ => false
  | _, j =>
    match j with
    | .number (.integer v) => decide (-(2 ^ 63) ≤ v ∧ v < 2 ^ 63)
    | _ => false

/-- The string a JSON string value gives. -/
def stringOf : JSON → Option String
  | .string s => some s
  | _ => none

/-- The value of a string member: the given string when the member is present,
the default `d` when it is missing. -/
def pickString (member : Option JSON) (d : String) : String :=
  match member with
  | some (.string s) => s
  | _ => d

/-- The value of an integer member: the given integer when the member is
present, the default `d` when it is missing. -/
def pickInt (member : Option JSON) (d : Int) : Int :=
  match member with
  | some (.number (.integer v)) => v
  | _ => d

/-- The value of the peer-list member: the slice of the given strings when
the member is present, the default `d` when it is missing. -/
def pickPeers (member : Option JSON) (d : peers) : peers :=
  match member with
  | some (.array elems) => .slice (elems.filterMap stringOf)
  | _ => d

/-- The result the specification describes for the members `ms` of the
`result` object, decoded over `r`: each expected member that is present gives
its value, each missing one leaves the field of `r`. -/
def expected (r : NodestateResult) (ms : List (String × JSON)) : NodestateResult where
  Status := pickString (ms.lookup "status") r.Status
  LatestBlockHeight := pickInt (ms.lookup "latest_block_height") r.LatestBlockHeight
  LatestCumulativeWeight :=
    pickInt (ms.lookup "latest_cumulative_weight") r.LatestCumulativeWeight
  NumberOfConnectedPeers :=
    pickInt (ms.lookup "number_of_connected_peers") r.NumberOfConnectedPeers
  NumberOfCandidatePeers :=
    pickInt (ms.lookup "number_of_candidate_peers") r.NumberOfCandidatePeers
  NumberOfConnectedSyncNodes :=
    pickInt (ms.lookup "number_of_connected_sync_nodes") r.NumberOfConnectedSyncNodes
  ConnectedPeers := pickPeers (ms.lookup "connected_peers") r.ConnectedPeers

/-! ## Upstream replies used as concrete inputs -/

/-- The upstream reply of scenario 1 of the specification. -/
def scenario1 : Except String Response :=
  .ok ⟨200, .ok (.wellFormed (.object [("result", .object
    [("status", .string "Ready"), ("latest_block_height", .number (.integer 100)),
     ("connected_peers", .array [.string "172.16.0.5", .string "10.0.0.9"])])]))⟩

/-- An upstream reply whose block height is `2^53 + 1`. -/
def tallChain : Except String Response :=
  .ok ⟨200, .ok (.wellFormed (.object [("result", .object
    [("status", .string "Ready"),
     ("latest_block_height", .number (.integer 9007199254740993))])]))⟩

/-- An upstream reply with status 500 whose body is the body of scenario 1. -/
def serverError : Except String Response :=
  .ok ⟨500, .ok (.wellFormed (.object [("result", .object
    [("status", .string "Ready"), ("latest_block_height", .number (.integer 100)),
     ("connected_peers", .array [.string "172.16.0.5", .string "10.0.0.9"])])]))⟩

/-! ## Lemmas: `float64` -/

theorem excessBits_small (fuel a : Nat) (h : a < 2 ^ 53) : excessBits fuel a = 0 := by
  cases fuel with
  | zero => rfl
  | succ k =>
    unfold excessBits
    rw [if_pos h]

theorem roundMagnitude_small (a : Nat) (h : a < 2 ^ 53) : roundMagnitude a = a := by
  simp [roundMagnitude, excessBits_small 64 a h, Nat.mod_one]

theorem roundMagnitude_exact (a : Nat) (h : a ≤ 2 ^ 53) : roundMagnitude a = a := by
  rcases Nat.lt_or_ge a (2 ^ 53) with hlt | hge
  · exact roundMagnitude_small a hlt
  · have : a = 2 ^ 53 := Nat.le_antisymm h hge
    subst this
    decide

/-- The conversion to `float64` is exact up to `2^53` in absolute value. -/
theorem float64_exact (n : Int) (h : n.natAbs ≤ 2 ^ 53) : float64 n = n := by
  unfold float64
  rw [roundMagnitude_exact n.natAbs h]
  split
  · rename_i hneg
    rw [Int.ofNat_natAbs_of_nonpos (le_of_lt hneg)]
    simp
  · rename_i hpos
    exact Int.natAbs_of_nonneg (not_lt.mp hpos)

/-! ## Lemmas: the pattern -/

theorem mustCompile_pattern :
    MustCompile "^172.16.*" =
      [.beginText, .one (.lit '1'), .one (.lit '7'), .one (.lit '2'), .one .anyCharNotNL,
       .one (.lit '1'), .one (.lit '6'), .star .anyCharNotNL] := by
  decide

theorem searchFrom_beginText_false (rest : List Inst) (s : List Char) :
    searchFrom (.beginText :: rest) false s = false := by
  induction s with
  | nil => simp [searchFrom, matchHere]
  | cons c s ih => simp [searchFrom, matchHere, ih]

theorem searchFrom_beginText (rest : List Inst) (s : List Char) :
    searchFrom (.beginText :: rest) true s = matchHere rest true s := by
  cases s with
  | nil => simp [searchFrom, matchHere]
  | cons c s => simp [searchFrom, matchHere, searchFrom_beginText_false]

theorem starLoop_end (cls : CharClass) (a : Bool) (s : List Char) :
    starLoop cls (fun _ _ => true) a s = true := by
  cases s with
  | nil => simp [starLoop]
  | cons c s => simp [starLoop]

/-- The compiled pattern accepts exactly the strings of the spelled-out
shape. -/
theorem matchString_eq_matchesAsWritten (p : String) :
    MatchString (MustCompile "^172.16.*") p = matchesAsWritten p := by
  rw [mustCompile_pattern]
  unfold MatchString matchesAsWritten
  rw [searchFrom_beginText]
  rcases p.data with _ | ⟨c0, _ | ⟨c1, _ | ⟨c2, _ | ⟨c3, _ | ⟨c4, _ | ⟨c5, s⟩⟩⟩⟩⟩⟩ <;>
    simp [matchHere, CharClass.accepts, starLoop_end, Bool.and_assoc]

theorem beginsWithLiteral_matchesAsWritten (p : String) (h : beginsWithLiteral p = true) :
    matchesAsWritten p = true := by
  unfold beginsWithLiteral at h
  unfold matchesAsWritten
  generalize p.data = l at h ⊢
  rcases l with _ | ⟨c0, _ | ⟨c1, _ | ⟨c2, _ | ⟨c3, _ | ⟨c4, _ | ⟨c5, s⟩⟩⟩⟩⟩⟩ <;>
    simp_all [List.isPrefixOf, String.data]
  obtain ⟨h0, h1, h2, h3, h4, h5, _⟩ := h
  subst h0 h1 h2 h3 h4 h5
  decide

/-! ## Lemmas: the counting loop -/

theorem foldl_count (f : String → Bool) (l : List String) (acc : Int) :
    l.foldl (fun (count : Int) peer => if f peer then count + 1 else count) acc
      = acc + (l.countP f : Nat) := by
  induction l generalizing acc with
  | nil => simp
  | cons p l ih =>
    simp only [List.foldl_cons, List.countP_cons]
    rw [ih]
    split
    · simp_all
      omega
    · simp_all

/-- The loop of `getSelfSegments` counts the entries of the spelled-out shape;
the result is that count converted to `float64`. -/
theorem getSelfSegments_eq_float64 (connectPeers : peers) :
    getSelfSegments connectPeers
      = float64 ((connectPeers.toList.countP matchesAsWritten : Nat) : Int) := by
  unfold getSelfSegments
  simp only [matchString_eq_matchesAsWritten]
  rw [foldl_count]
  simp

/-! ## Lemmas: the handler -/

theorem handler_ok (code : Nat) (body : Body) (v : RPCNodestateResponse)
    (h : Unmarshal body RPCNodestateResponse.zero = .ok v) :
    handler (.ok ⟨code, .ok body⟩) =
      [ .set .currentStatus (getStatus v.Result.Status),
        .set .currentBlock (float64 v.Result.LatestBlockHeight),
        .set .currentCumulativeWeight (float64 v.Result.LatestCumulativeWeight),
        .set .currentConnectedPeers (float64 v.Result.NumberOfConnectedPeers),
        .set .currentSelfConnectedPeers (getSelfSegments v.Result.ConnectedPeers),
        .set .currentCandidatePeers (float64 v.Result.NumberOfCandidatePeers),
        .set .currentConnectedSyncNodes (float64 v.Result.NumberOfConnectedSyncNodes),
        .serveHTTP ] := by
  simp [handler, h]

theorem handler_decode_error (code : Nat) (body : Body) (e : UnmarshalError)
    (h : Unmarshal body RPCNodestateResponse.zero = .error e) :
    handler (.ok ⟨code, .ok body⟩) = [.log "Unable to unmarshall"] := by
  simp [handler, h]

theorem scrape_ok (g : Gauges) (code : Nat) (body : Body) (v : RPCNodestateResponse)
    (h : Unmarshal body RPCNodestateResponse.zero = .ok v) :
    scrape g (.ok ⟨code, .ok body⟩) = mapped v.Result := by
  unfold scrape
  rw [handler_ok code body v h]
  rfl

theorem scrape_of_decoded (g : Gauges) (post : Except String Response) (r : NodestateResult)
    (h : decoded post = some r) : scrape g post = mapped r := by
  unfold decoded at h
  rcases post with err | ⟨code, rd⟩
  · simp at h
  · rcases rd with err | body
    · simp at h
    · cases hu : Unmarshal body RPCNodestateResponse.zero with
      | error e => simp [hu] at h
      | ok v =>
        simp [hu] at h
        rw [scrape_ok g code body v hu, h]

theorem scrape_of_not_decoded (g : Gauges) (post : Except String Response)
    (h : decoded post = none) : scrape g post = g := by
  unfold decoded at h
  rcases post with err | ⟨code, rd⟩
  · rfl
  · rcases rd with err | body
    · rfl
    · cases hu : Unmarshal body RPCNodestateResponse.zero with
      | error e =>
        unfold scrape
        rw [handler_decode_error code body e hu]
        rfl
      | ok v => simp [hu] at h

theorem scrapes_from (g : Gauges) (posts : List (Except String Response)) :
    scrapes g posts =
      match posts.reverse.findSome? decoded with
      | some r => mapped r
      | none => g := by
  induction posts generalizing g with
  | nil => rfl
  | cons p ps ih =>
    have hstep : scrapes g (p :: ps) = scrapes (scrape g p) ps := rfl
    rw [hstep, ih, List.reverse_cons, List.findSome?_append]
    cases hps : ps.reverse.findSome? decoded with
    | some r => simp
    | none =>
      cases hp : decoded p with
      | some r => simp [hp, scrape_of_decoded g p r hp]
      | none => simp [hp, scrape_of_not_decoded g p hp]

/-! ## Lemmas: decoding -/

theorem fieldFor_tag (f : Field) : fieldFor f.tag = some f := by
  cases f <;> decide

theorem lookup_of_not_mem (k : String) (ms : List (String × JSON))
    (h : k ∉ ms.map Prod.fst) : ms.lookup k = none := by
  induction ms with
  | nil => rfl
  | cons kv ms ih =>
    obtain ⟨k1, j1⟩ := kv
    simp only [List.map_cons, List.mem_cons, not_or] at h
    rw [List.lookup_cons]
    have hne : (k == k1) = false := by simpa using h.1
    rw [hne]
    exact ih h.2

theorem lookup_cons_ne (k k1 : String) (j1 : JSON) (ms : List (String × JSON))
    (h : k ≠ k1) : List.lookup k ((k1, j1) :: ms) = ms.lookup k := by
  rw [List.lookup_cons]
  have hne : (k == k1) = false := by simpa using h
  rw [hne]

theorem decodeElems_strings (cur : List String) (elems : List JSON)
    (h : elems.all (fun e => match e with
      | .string _ => true
      | _ => false) = true) :
    decodeElems cur elems = .ok (elems.filterMap stringOf) := by
  induction elems generalizing cur with
  | nil => rfl
  | cons e es ih =>
    simp only [List.all_cons, Bool.and_eq_true] at h
    cases e with
    | string x =>
      simp only [decodeElems, decodeString, ih cur.tail h.2]
      rfl
    | null => simp at h
    | bool b => simp at h
    | number n => simp at h
    | array a => simp at h
    | object o => simp at h

theorem decodeInt_inRange (cur v : Int) (h : -(2 ^ 63) ≤ v ∧ v < 2 ^ 63) :
    decodeInt cur (.number (.integer v)) = .ok v := by
  show (if -(2 ^ 63) ≤ v ∧ v < 2 ^ 63 then Except.ok v else Except.error UnmarshalError.typeError)
    = Except.ok v
  rw [if_pos h]

theorem decodePeers_strings (cur : peers) (spare : List String) (a : List JSON)
    (h : a.all (fun e => match e with
      | .string _ => true
      | _ => false) = true) :
    ∃ sp, decodePeers cur spare (.array a) = .ok (.slice (a.filterMap stringOf), sp) := by
  cases a with
  | nil => exact ⟨[], rfl⟩
  | cons e es =>
    refine ⟨(cur.toList ++ spare).drop ((e :: es).filterMap stringOf).length, ?_⟩
    simp only [decodePeers, decodeElems_strings _ (e :: es) h]

theorem decodeField_wellTyped (r : NodestateResult) (spare : List String) (f : Field)
    (j : JSON) (h : wellTyped f j = true) (ms : List (String × JSON))
    (hfresh : f.tag ∉ ms.map Prod.fst) :
    ∃ r1 sp, decodeField r spare f j = .ok (r1, sp) ∧
      expected r1 ms = expected r ((f.tag, j) :: ms) := by
  have hl := lookup_of_not_mem f.tag ms hfresh
  cases f with
  | Status =>
    cases j with
    | string x =>
      refine ⟨{ r with Status := x }, spare, rfl, ?_⟩
      simp only [Field.tag] at hl
      simp [expected, hl, pickString, lookup_cons_ne, Field.tag]
    | null => simp [wellTyped] at h
    | bool b => simp [wellTyped] at h
    | number n => simp [wellTyped] at h
    | array a => simp [wellTyped] at h
    | object o => simp [wellTyped] at h
  | ConnectedPeers =>
    cases j with
    | array a =>
      simp only [wellTyped] at h
      obtain ⟨sp, hsp⟩ := decodePeers_strings r.ConnectedPeers spare a h
      refine ⟨{ r with ConnectedPeers := .slice (a.filterMap stringOf) }, sp, ?_, ?_⟩
      · simp [decodeField, hsp, Except.map]
      · simp only [Field.tag] at hl
        simp [expected, hl, pickPeers, lookup_cons_ne, Field.tag]
    | null => simp [wellTyped] at h
    | bool b => simp [wellTyped] at h
    | number n => simp [wellTyped] at h
    | string x => simp [wellTyped] at h
    | object o => simp [wellTyped] at h
  | LatestBlockHeight =>
    cases j with
    | number n =>
      cases n with
      | integer v =>
        simp only [wellTyped, decide_eq_true_eq] at h
        refine ⟨{ r with LatestBlockHeight := v }, spare, ?_, ?_⟩
        · simp [decodeField, decodeInt_inRange _ v h, Except.map]
        · simp only [Field.tag] at hl
          simp [expected, hl, pickInt, lookup_cons_ne, Field.tag]
      | fractional t => simp [wellTyped] at h
    | null => simp [wellTyped] at h
    | bool b => simp [wellTyped] at h
    | array a => simp [wellTyped] at h
    | string x => simp [wellTyped] at h
    | object o => simp [wellTyped] at h
  | LatestCumulativeWeight =>
    cases j with
    | number n =>
      cases n with
      | integer v =>
        simp only [wellTyped, decide_eq_true_eq] at h
        refine ⟨{ r with LatestCumulativeWeight := v }, spare, ?_, ?_⟩
        · simp [decodeField, decodeInt_inRange _ v h, Except.map]
        · simp only [Field.tag] at hl
          simp [expected, hl, pickInt, lookup_cons_ne, Field.tag]
      | fractional t => simp [wellTyped] at h
    | null => simp [wellTyped] at h
    | bool b => simp [wellTyped] at h
    | array a => simp [wellTyped] at h
    | string x => simp [wellTyped] at h
    | object o => simp [wellTyped] at h
  | NumberOfConnectedPeers =>
    cases j with
    | number n =>
      cases n with
      | integer v =>
        simp only [wellTyped, decide_eq_true_eq] at h
        refine ⟨{ r with NumberOfConnectedPeers := v }, spare, ?_, ?_⟩
        · simp [decodeField, decodeInt_inRange _ v h, Except.map]
        · simp only [Field.tag] at hl
          simp [expected, hl, pickInt, lookup_cons_ne, Field.tag]
      | fractional t => simp [wellTyped] at h
    | null => simp [wellTyped] at h
    | bool b => simp [wellTyped] at h
    | array a => simp [wellTyped] at h
    | string x => simp [wellTyped] at h
    | object o => simp [wellTyped] at h
  | NumberOfCandidatePeers =>
    cases j with
    | number n =>
      cases n with
      | integer v =>
        simp only [wellTyped, decide_eq_true_eq] at h
        refine ⟨{ r with NumberOfCandidatePeers := v }, spare, ?_, ?_⟩
        · simp [decodeField, decodeInt_inRange _ v h, Except.map]
        · simp only [Field.tag] at hl
          simp [expected, hl, pickInt, lookup_cons_ne, Field.tag]
      | fractional t => simp [wellTyped] at h
    | null => simp [wellTyped] at h
    | bool b => simp [wellTyped] at h
    | array a => simp [wellTyped] at h
    | string x => simp [wellTyped] at h
    | object o => simp [wellTyped] at h
  | NumberOfConnectedSyncNodes =>
    cases j with
    | number n =>
      cases n with
      | integer v =>
        simp only [wellTyped, decide_eq_true_eq] at h
        refine ⟨{ r with NumberOfConnectedSyncNodes := v }, spare, ?_, ?_⟩
        · simp [decodeField, decodeInt_inRange _ v h, Except.map]
        · simp only [Field.tag] at hl
          simp [expected, hl, pickInt, lookup_cons_ne, Field.tag]
      | fractional t => simp [wellTyped] at h
    | null => simp [wellTyped] at h
    | bool b => simp [wellTyped] at h
    | array a => simp [wellTyped] at h
    | string x => simp [wellTyped] at h
    | object o => simp [wellTyped] at h

theorem expected_skip (r : NodestateResult) (k : String) (j : JSON)
    (ms : List (String × JSON)) (h : fieldFor k = none) :
    expected r ((k, j) :: ms) = expected r ms := by
  have hne : ∀ f : Field, f.tag ≠ k := by
    intro f hf
    rw [← hf, fieldFor_tag] at h
    cases h
  have h1 := hne .Status
  have h2 := hne .LatestBlockHeight
  have h3 := hne .LatestCumulativeWeight
  have h4 := hne .NumberOfConnectedPeers
  have h5 := hne .NumberOfCandidatePeers
  have h6 := hne .NumberOfConnectedSyncNodes
  have h7 := hne .ConnectedPeers
  simp only [Field.tag] at h1 h2 h3 h4 h5 h6 h7
  simp only [expected, lookup_cons_ne _ _ _ _ h1, lookup_cons_ne _ _ _ _ h2,
    lookup_cons_ne _ _ _ _ h3, lookup_cons_ne _ _ _ _ h4, lookup_cons_ne _ _ _ _ h5,
    lookup_cons_ne _ _ _ _ h6, lookup_cons_ne _ _ _ _ h7]

/-- Decoding the members of a `result` object whose expected members are well
typed and not repeated, and whose other members select no field, gives the
result the specification describes. -/
theorem decodeMembers_expected (r : NodestateResult) (spare : List String)
    (ms : List (String × JSON))
    (hkeys : ∀ kv ∈ ms, kv.1 ∈ Field.all.map Field.tag ∨ fieldFor kv.1 = none)
    (htyped : ∀ kv ∈ ms, ∀ f ∈ Field.all, kv.1 = f.tag → wellTyped f kv.2 = true)
    (hnodup : (ms.map Prod.fst).Nodup) :
    ∃ sp, decodeMembers r spare ms = .ok (expected r ms, sp) := by
  induction ms generalizing r spare with
  | nil => exact ⟨spare, rfl⟩
  | cons kv ms ih =>
    obtain ⟨k, j⟩ := kv
    have hkeys1 : ∀ kv ∈ ms, kv.1 ∈ Field.all.map Field.tag ∨ fieldFor kv.1 = none :=
      fun kv hkv => hkeys kv (List.mem_cons_of_mem _ hkv)
    have htyped1 : ∀ kv ∈ ms, ∀ f ∈ Field.all, kv.1 = f.tag → wellTyped f kv.2 = true :=
      fun kv hkv => htyped kv (List.mem_cons_of_mem _ hkv)
    simp only [List.map_cons, List.nodup_cons] at hnodup
    rcases hkeys (k, j) (List.mem_cons_self _ _) with hmem | hnone
    · obtain ⟨f, hf, hfk⟩ := List.mem_map.mp hmem
      simp only at hfk
      subst hfk
      have hty := htyped (f.tag, j) (List.mem_cons_self _ _) f hf rfl
      obtain ⟨r1, sp1, hr1, hexp⟩ := decodeField_wellTyped r spare f j hty ms hnodup.1
      obtain ⟨sp, hsp⟩ := ih r1 sp1 hkeys1 htyped1 hnodup.2
      refine ⟨sp, ?_⟩
      unfold decodeMembers
      simp only [fieldFor_tag, hr1]
      rw [hsp, hexp]
    · simp only at hnone
      obtain ⟨sp, hsp⟩ := ih r spare hkeys1 htyped1 hnodup.2
      refine ⟨sp, ?_⟩
      unfold decodeMembers
      simp only [hnone]
      rw [hsp, expected_skip r k j ms hnone]

theorem decodeEnvelope_skip (v : RPCNodestateResponse) (spare : List String)
    (l : List (String × JSON))
    (h : ∀ kv ∈ l, equalFold "result" kv.1 = false) : decodeEnvelope v spare l = .ok v := by
  induction l with
  | nil => rfl
  | cons kv l ih =>
    obtain ⟨k, j⟩ := kv
    have hk : equalFold "result" k = false := h (k, j) (List.mem_cons_self _ _)
    unfold decodeEnvelope
    simp only [hk]
    exact ih (fun kv hkv => h kv (List.mem_cons_of_mem _ hkv))

theorem decodeEnvelope_append_skip (v : RPCNodestateResponse) (spare : List String)
    (pre l : List (String × JSON))
    (h : ∀ kv ∈ pre, equalFold "result" kv.1 = false) :
    decodeEnvelope v spare (pre ++ l) = decodeEnvelope v spare l := by
  induction pre with
  | nil => rfl
  | cons kv pre ih =>
    obtain ⟨k, j⟩ := kv
    have hk : equalFold "result" k = false := h (k, j) (List.mem_cons_self _ _)
    rw [List.cons_append]
    simp only [decodeEnvelope, hk]
    exact ih (fun kv hkv => h kv (List.mem_cons_of_mem _ hkv))

theorem unmarshal_object (ms : List (String × JSON)) (v : RPCNodestateResponse)
    (h : (JSON.object ms).depth ≤ maxNestingDepth) :
    Unmarshal (.wellFormed (.object ms)) v = decodeEnvelope v [] ms := by
  unfold Unmarshal
  simp only [not_lt.mpr h, if_false]

theorem unmarshal_deep (j : JSON) (v : RPCNodestateResponse)
    (h : maxNestingDepth < j.depth) :
    Unmarshal (.wellFormed j) v = .error .syntaxError := by
  unfold Unmarshal
  simp only [h, if_true]

theorem decodeNodestateResult_scalar (cur : NodestateResult) (spare : List String) (x : JSON)
    (hobj : ∀ xs, x ≠ .object xs) (hnull : x ≠ .null) :
    decodeNodestateResult cur spare x = .error .typeError := by
  cases x with
  | null => exact absurd rfl hnull
  | object xs => exact absurd rfl (hobj xs)
  | bool b => rfl
  | number n => rfl
  | string t => rfl
  | array a => rfl

/-- An envelope with a member that selects `Result` and holds neither an
object nor `null` does not decode, wherever the member stands. -/
theorem decodeEnvelope_bad_result (v : RPCNodestateResponse) (spare : List String)
    (ms : List (String × JSON)) (k : String) (x : JSON) (hmem : (k, x) ∈ ms)
    (hk : equalFold "result" k = true) (hobj : ∀ xs, x ≠ .object xs) (hnull : x ≠ .null) :
    ∃ e, decodeEnvelope v spare ms = .error e := by
  induction ms generalizing v spare with
  | nil => cases hmem
  | cons kv ms ih =>
    obtain ⟨k0, x0⟩ := kv
    by_cases hk0 : equalFold "result" k0 = true
    · cases hd : decodeNodestateResult v.Result spare x0 with
      | error e =>
        refine ⟨e, ?_⟩
        simp only [decodeEnvelope, hk0, if_true, hd]
      | ok r =>
        rcases List.mem_cons.mp hmem with heq | htail
        · have hx : x = x0 := (Prod.mk.inj heq).2
          subst hx
          rw [decodeNodestateResult_scalar v.Result spare x hobj hnull] at hd
          cases hd
        · obtain ⟨e, he⟩ := ih ⟨r.1⟩ r.2 htail
          refine ⟨e, ?_⟩
          simp only [decodeEnvelope, hk0, if_true, hd]
          exact he
    · rcases List.mem_cons.mp hmem with heq | htail
      · have hkk : k = k0 := (Prod.mk.inj heq).1
        subst hkk
        exact absurd hk hk0
      · obtain ⟨e, he⟩ := ih v spare htail
        refine ⟨e, ?_⟩
        simp only [decodeEnvelope, hk0]
        exact he

/-! ## `getStatus` and `getSelfSegments` -/

/-- C1: `getStatus` is 1 on exactly "Peering", 2 on exactly "Syncing", 3 on
exactly "Ready", 4 on exactly "Mining" and 5 on every other string, the empty
string and the case-mismatched spellings "ready" and "MINING" included; so it
is 5 if and only if the string is none of the four names. -/
theorem getStatus_classification :
    getStatus "Peering" = 1 ∧ getStatus "Syncing" = 2 ∧ getStatus "Ready" = 3 ∧
    getStatus "Mining" = 4 ∧ getStatus "" = 5 ∧ getStatus "ready" = 5 ∧
    getStatus "MINING" = 5 ∧
    (∀ s : String, getStatus s = 1 ↔ s = "Peering") ∧
    (∀ s : String, getStatus s = 2 ↔ s = "Syncing") ∧
    (∀ s : String, getStatus s = 3 ↔ s = "Ready") ∧
    (∀ s : String, getStatus s = 4 ↔ s = "Mining") ∧
    (∀ s : String, getStatus s = 5 ↔
      s ≠ "Peering" ∧ s ≠ "Syncing" ∧ s ≠ "Ready" ∧ s ≠ "Mining") := by
  refine ⟨by decide, by decide, by decide, by decide, by decide, by decide, by decide,
    ?_, ?_, ?_, ?_, ?_⟩ <;>
  · intro s
    unfold getStatus
    by_cases h1 : s = "Peering"
    · subst h1; decide
    by_cases h2 : s = "Syncing"
    · subst h2; decide
    by_cases h3 : s = "Ready"
    · subst h3; decide
    by_cases h4 : s = "Mining"
    · subst h4; decide
    simp [h1, h2, h3, h4]

/-- C2 (the code at the failing input): the single peer "172.160.0.1" does not
begin with the literal `172.16.`, so no entry of the list has that literal
beginning, yet `getSelfSegments` counts it and returns 1. -/
theorem getSelfSegments_counts_nonliteral :
    beginsWithLiteral "172.160.0.1" = false ∧
    (peers.slice ["172.160.0.1"]).toList.countP beginsWithLiteral = 0 ∧
    getSelfSegments (.slice ["172.160.0.1"]) = 1 := by
  decide

/-- C9: `getSelfSegments` returns 0 for the empty peer list and for the absent
(nil) peer list. -/
theorem getSelfSegments_empty :
    getSelfSegments (.slice []) = 0 ∧ getSelfSegments .nil = 0 := by
  decide

/-- C10: a peer is counted by `getSelfSegments` if and only if it matches the
pattern `^172.16.*` as written, that is, it has at least six characters, the
first three are `172`, the fourth is any character but a newline and the fifth
and sixth are `16`; the result is the number of such entries.  So every entry
beginning with the literal `172.16.` is counted, and so are "172.160.0.1",
"172.16" and "172x16", and the result lies between the number of entries with
the literal beginning and the length of the list.  (The count is converted to
`float64`; a list of at most `2^53` entries, as every slice in memory is, makes
the conversion exact.) -/
theorem getSelfSegments_counts_pattern (connectPeers : peers)
    (hlen : connectPeers.toList.length ≤ 2 ^ 53) :
    (∀ p : String, MatchString (MustCompile "^172.16.*") p = true ↔
      ∃ c rest, p.data = '1' :: '7' :: '2' :: c :: '1' :: '6' :: rest ∧ c ≠ '\n') ∧
    getSelfSegments connectPeers =
      ((connectPeers.toList.countP
        (fun p => MatchString (MustCompile "^172.16.*") p) : Nat) : Int) ∧
    (∀ p : String, beginsWithLiteral p = true →
      MatchString (MustCompile "^172.16.*") p = true) ∧
    MatchString (MustCompile "^172.16.*") "172.160.0.1" = true ∧
    MatchString (MustCompile "^172.16.*") "172.16" = true ∧
    MatchString (MustCompile "^172.16.*") "172x16" = true ∧
    ((connectPeers.toList.countP beginsWithLiteral : Nat) : Int)
      ≤ getSelfSegments connectPeers ∧
    getSelfSegments connectPeers ≤ (connectPeers.toList.length : Int) := by
  have hcount : connectPeers.toList.countP matchesAsWritten ≤ 2 ^ 53 :=
    le_trans (List.countP_le_length _) hlen
  have hval : getSelfSegments connectPeers =
      ((connectPeers.toList.countP matchesAsWritten : Nat) : Int) := by
    rw [getSelfSegments_eq_float64]
    apply float64_exact
    simpa using hcount
  refine ⟨?_, ?_, ?_, by decide, by decide, by decide, ?_, ?_⟩
  · intro p
    rw [matchString_eq_matchesAsWritten]
    unfold matchesAsWritten
    generalize p.data = l
    rcases l with _ | ⟨c0, _ | ⟨c1, _ | ⟨c2, _ | ⟨c3, _ | ⟨c4, _ | ⟨c5, s⟩⟩⟩⟩⟩⟩ <;>
      simp
    constructor
    · rintro ⟨⟨⟨⟨⟨h0, h1⟩, h2⟩, h3⟩, h4⟩, h5⟩
      exact ⟨c3, ⟨h0, h1, h2, rfl, h4, h5⟩, h3⟩
    · rintro ⟨c, ⟨h0, h1, h2, h3, h4, h5⟩, hc⟩
      subst h3
      exact ⟨⟨⟨⟨⟨h0, h1⟩, h2⟩, hc⟩, h4⟩, h5⟩
  · rw [hval]
    simp only [matchString_eq_matchesAsWritten]
  · intro p hp
    rw [matchString_eq_matchesAsWritten]
    exact beginsWithLiteral_matchesAsWritten p hp
  · rw [hval]
    exact_mod_cast List.countP_mono_left
      (fun p _ hp => beginsWithLiteral_matchesAsWritten p hp)
  · rw [hval]
    exact_mod_cast List.countP_le_length _

/-- C10 at a concrete list: of the four peers, the pattern counts three, the
literal beginning would count one. -/
theorem getSelfSegments_counts_pattern_witness :
    (peers.slice ["172.16.0.5", "172.160.0.1", "10.0.0.9", "172x16"]).toList.length ≤ 2 ^ 53 ∧
    getSelfSegments (.slice ["172.16.0.5", "172.160.0.1", "10.0.0.9", "172x16"]) =
      (((peers.slice ["172.16.0.5", "172.160.0.1", "10.0.0.9", "172x16"]).toList.countP
        (fun p => MatchString (MustCompile "^172.16.*") p) : Nat) : Int) ∧
    getSelfSegments (.slice ["172.16.0.5", "172.160.0.1", "10.0.0.9", "172x16"]) = 3 :=
  ⟨by decide,
   (getSelfSegments_counts_pattern
      (.slice ["172.16.0.5", "172.160.0.1", "10.0.0.9", "172x16"]) (by decide)).2.1,
   by decide⟩

/-! ## The scrape -/

/-- C3 fails as stated: the scrape decodes the block height 9007199254740993
and the gauge `current_block` then holds 9007199254740992, not the decoded
height. -/
theorem scrape_block_height_rounded :
    decoded tallChain = some ⟨"Ready", 9007199254740993, 0, 0, 0, 0, .nil⟩ ∧
    (scrape Gauges.initial tallChain).currentBlock = 9007199254740992 ∧
    (scrape Gauges.initial tallChain).currentBlock ≠ 9007199254740993 := by
  decide

/-- C3, amended: after a successful scrape that decodes `r`, whatever the
gauges held before, the seven gauges hold `getStatus(r.Status)`,
`float64(r.LatestBlockHeight)`, `float64(r.LatestCumulativeWeight)`,
`float64(r.NumberOfConnectedPeers)`, `getSelfSegments(r.ConnectedPeers)`,
`float64(r.NumberOfCandidatePeers)` and `float64(r.NumberOfConnectedSyncNodes)`;
the result does not depend on the previous values, the metrics are rendered
after the seven updates, and each converted gauge equals its integer field
whenever that field is at most `2^53` in absolute value. -/
theorem scrape_success_overwrites (g : Gauges) (resp : Response) (body : Body)
    (r : NodestateResult) (hread : resp.ReadAll = .ok body)
    (hdecode : Unmarshal body RPCNodestateResponse.zero = .ok ⟨r⟩) :
    (scrape g (.ok resp)).currentStatus = getStatus r.Status ∧
    (scrape g (.ok resp)).currentBlock = float64 r.LatestBlockHeight ∧
    (scrape g (.ok resp)).currentCumulativeWeight = float64 r.LatestCumulativeWeight ∧
    (scrape g (.ok resp)).currentConnectedPeers = float64 r.NumberOfConnectedPeers ∧
    (scrape g (.ok resp)).currentSelfConnectedPeers = getSelfSegments r.ConnectedPeers ∧
    (scrape g (.ok resp)).currentCandidatePeers = float64 r.NumberOfCandidatePeers ∧
    (scrape g (.ok resp)).currentConnectedSyncNodes = float64 r.NumberOfConnectedSyncNodes ∧
    (∀ g2 : Gauges, scrape g2 (.ok resp) = scrape g (.ok resp)) ∧
    handler (.ok resp) =
      [ .set .currentStatus (getStatus r.Status),
        .set .currentBlock (float64 r.LatestBlockHeight),
        .set .currentCumulativeWeight (float64 r.LatestCumulativeWeight),
        .set .currentConnectedPeers (float64 r.NumberOfConnectedPeers),
        .set .currentSelfConnectedPeers (getSelfSegments r.ConnectedPeers),
        .set .currentCandidatePeers (float64 r.NumberOfCandidatePeers),
        .set .currentConnectedSyncNodes (float64 r.NumberOfConnectedSyncNodes),
        .serveHTTP ] ∧
    (r.LatestBlockHeight.natAbs ≤ 2 ^ 53 →
      (scrape g (.ok resp)).currentBlock = r.LatestBlockHeight) ∧
    (r.LatestCumulativeWeight.natAbs ≤ 2 ^ 53 →
      (scrape g (.ok resp)).currentCumulativeWeight = r.LatestCumulativeWeight) ∧
    (r.NumberOfConnectedPeers.natAbs ≤ 2 ^ 53 →
      (scrape g (.ok resp)).currentConnectedPeers = r.NumberOfConnectedPeers) ∧
    (r.NumberOfCandidatePeers.natAbs ≤ 2 ^ 53 →
      (scrape g (.ok resp)).currentCandidatePeers = r.NumberOfCandidatePeers) ∧
    (r.NumberOfConnectedSyncNodes.natAbs ≤ 2 ^ 53 →
      (scrape g (.ok resp)).currentConnectedSyncNodes = r.NumberOfConnectedSyncNodes) := by
  obtain ⟨code, rd⟩ := resp
  simp only at hread
  subst hread
  have hs : ∀ g0 : Gauges, scrape g0 (.ok ⟨code, .ok body⟩) = mapped r :=
    fun g0 => scrape_ok g0 code body ⟨r⟩ hdecode
  refine ⟨by rw [hs]; rfl, by rw [hs]; rfl, by rw [hs]; rfl, by rw [hs]; rfl, by rw [hs]; rfl,
    by rw [hs]; rfl, by rw [hs]; rfl, fun g2 => by rw [hs, hs], ?_, ?_, ?_, ?_, ?_, ?_⟩
  · exact handler_ok code body ⟨r⟩ hdecode
  · intro h
    rw [hs]
    exact float64_exact _ h
  · intro h
    rw [hs]
    exact float64_exact _ h
  · intro h
    rw [hs]
    exact float64_exact _ h
  · intro h
    rw [hs]
    exact float64_exact _ h
  · intro h
    rw [hs]
    exact float64_exact _ h

/-- C3 at scenario 1: status "Ready", height 100 and the peers "172.16.0.5",
"10.0.0.9" give status 3, block 100 and one self peer, from a prior state in
which the gauges held other values. -/
theorem scrape_success_overwrites_witness :
    (scrape ⟨7, 7, 7, 7, 7, 7, 7⟩ scenario1).currentStatus = 3 ∧
    (scrape ⟨7, 7, 7, 7, 7, 7, 7⟩ scenario1).currentBlock = 100 ∧
    (scrape ⟨7, 7, 7, 7, 7, 7, 7⟩ scenario1).currentSelfConnectedPeers = 1 :=
  have h := scrape_success_overwrites ⟨7, 7, 7, 7, 7, 7, 7⟩
    ⟨200, .ok (.wellFormed (.object [("result", .object
      [("status", .string "Ready"), ("latest_block_height", .number (.integer 100)),
       ("connected_peers", .array [.string "172.16.0.5", .string "10.0.0.9"])])]))⟩
    _ ⟨"Ready", 100, 0, 0, 0, 0, .slice ["172.16.0.5", "10.0.0.9"]⟩ rfl rfl
  ⟨h.1.trans (by decide), h.2.1.trans (by decide), h.2.2.2.2.1.trans (by decide)⟩

/-- C4: a scrape whose fetch fails (the POST returns an error, or reading the
body does) or whose decode fails leaves every gauge at its value before the
scrape, whatever that was; the handler only logs: it makes no `Set` call and
does not render.  A body that is not valid JSON is such a decode failure. -/
theorem scrape_failure_keeps_gauges (g : Gauges) (post : Except String Response)
    (hfail : (∃ err, post = .error err) ∨
      (∃ code err, post = .ok ⟨code, .error err⟩) ∨
      (∃ code body e, post = .ok ⟨code, .ok body⟩ ∧
        Unmarshal body RPCNodestateResponse.zero = .error e)) :
    scrape g post = g ∧
    (∃ message, handler post = [.log message]) ∧
    (∀ gauge v, Effect.set gauge v ∉ handler post) ∧
    Effect.serveHTTP ∉ handler post ∧
    (∀ text v, Unmarshal (.malformed text) v = .error .syntaxError) := by
  have key : ∃ message, handler post = [.log message] := by
    rcases hfail with ⟨err, rfl⟩ | ⟨code, err, rfl⟩ | ⟨code, body, e, rfl, he⟩
    · exact ⟨_, rfl⟩
    · exact ⟨_, rfl⟩
    · exact ⟨_, handler_decode_error code body e he⟩
  obtain ⟨message, hm⟩ := key
  refine ⟨?_, ⟨message, hm⟩, ?_, ?_, fun _ _ => rfl⟩
  · unfold scrape
    rw [hm]
    rfl
  · intro gauge v
    rw [hm]
    simp
  · rw [hm]
    simp

/-- C4 at scenario 4 (a body that is not JSON) and scenario 3 (upstream
unreachable): the gauges keep the values of the earlier scrape. -/
theorem scrape_failure_keeps_gauges_witness :
    scrape (scrape Gauges.initial scenario1) (.ok ⟨200, .ok (.malformed "<html>")⟩)
      = scrape Gauges.initial scenario1 ∧
    scrape (scrape Gauges.initial scenario1) (.error "connection refused")
      = scrape Gauges.initial scenario1 :=
  ⟨(scrape_failure_keeps_gauges (scrape Gauges.initial scenario1)
      (.ok ⟨200, .ok (.malformed "<html>")⟩)
      (Or.inr (Or.inr ⟨200, .malformed "<html>", .syntaxError, rfl, rfl⟩))).1,
   (scrape_failure_keeps_gauges (scrape Gauges.initial scenario1)
      (.error "connection refused") (Or.inl ⟨_, rfl⟩)).1⟩

/-- C5 fails as stated: for a reply with status 500 the handler decodes the
body, updates the gauges and renders the metrics. -/
theorem scrape_non2xx_updates :
    scrape Gauges.initial serverError = ⟨100, 0, 3, 0, 1, 0, 0⟩ ∧
    scrape Gauges.initial serverError ≠ Gauges.initial ∧
    Effect.serveHTTP ∈ handler serverError := by
  decide

/-- C5, amended: the handler never looks at the HTTP status of the reply: two
replies with the same body outcome are handled in the same way whatever their
status codes, so a non-2xx reply is read and decoded like a 2xx one, and when
its body decodes the gauges are overwritten with the mapped values and the
metrics are rendered.  Only an error of the POST itself or of reading the body
stops the scrape before decoding, with one log line. -/
theorem handler_ignores_status_code (code1 code2 : Nat) (readAll : Except String Body)
    (g : Gauges) :
    handler (.ok ⟨code1, readAll⟩) = handler (.ok ⟨code2, readAll⟩) ∧
    scrape g (.ok ⟨code1, readAll⟩) = scrape g (.ok ⟨code2, readAll⟩) ∧
    (∀ body v, readAll = .ok body → Unmarshal body RPCNodestateResponse.zero = .ok v →
      scrape g (.ok ⟨code1, readAll⟩) = mapped v.Result ∧
      Effect.serveHTTP ∈ handler (.ok ⟨code1, readAll⟩)) ∧
    (∀ err, handler (.error err) = [.log ("Error getting response. " ++ err)]) ∧
    (∀ err, handler (.ok ⟨code1, .error err⟩) = [.log ("Error reading response. " ++ err)]) := by
  refine ⟨rfl, rfl, ?_, fun _ => rfl, fun _ => rfl⟩
  intro body v hread hv
  subst hread
  refine ⟨scrape_ok g code1 body v hv, ?_⟩
  rw [handler_ok code1 body v hv]
  simp

/-- C7: starting from the initial registry (all seven gauges 0), after any
sequence of scrapes the gauges hold the mapped values of the result decoded by
the last successful scrape of the sequence, or the initial zeros when no scrape
succeeded; a failed scrape changes no gauge, whatever the gauges hold. -/
theorem scrapes_reflect_last_success :
    (∀ posts : List (Except String Response),
      scrapes Gauges.initial posts =
        match posts.reverse.findSome? decoded with
        | some r => mapped r
        | none => Gauges.initial) ∧
    (∀ (g : Gauges) (post : Except String Response), decoded post = none → scrape g post = g) ∧
    (∀ post : Except String Response, decoded post = none ↔
      (∃ err, post = .error err) ∨
      (∃ code err, post = .ok ⟨code, .error err⟩) ∨
      (∃ code body e, post = .ok ⟨code, .ok body⟩ ∧
        Unmarshal body RPCNodestateResponse.zero = .error e)) ∧
    scrapes Gauges.initial
      [.error "connection refused", scenario1, .ok ⟨200, .ok (.malformed "<html>")⟩]
      = ⟨100, 0, 3, 0, 1, 0, 0⟩ := by
  refine ⟨fun posts => scrapes_from _ posts, scrape_of_not_decoded, ?_, by decide⟩
  intro post
  unfold decoded
  rcases post with err | ⟨code, rd⟩
  · simp
  · rcases rd with err | body
    · simp
    · cases hu : Unmarshal body RPCNodestateResponse.zero with
      | error e =>
        simp [hu]
        exact ⟨code, body, ⟨rfl, rfl⟩, e, hu⟩
      | ok v => simp [hu]

/-! ## Decoding the envelope -/

/-- C6 fails as stated: the bodies `{}`, `null` and `{"error":"x"}` decode
without error to the zero-valued result, and a scrape with the body `{}`
overwrites the gauges of the scrape before it. -/
theorem scrape_empty_object_overwrites :
    decoded (.ok ⟨200, .ok (.wellFormed (.object []))⟩) = some NodestateResult.zero ∧
    decoded (.ok ⟨200, .ok (.wellFormed .null)⟩) = some NodestateResult.zero ∧
    decoded (.ok ⟨200, .ok (.wellFormed (.object [("error", .string "x")]))⟩)
      = some NodestateResult.zero ∧
    scrape Gauges.initial scenario1 = ⟨100, 0, 3, 0, 1, 0, 0⟩ ∧
    scrape (scrape Gauges.initial scenario1) (.ok ⟨200, .ok (.wellFormed (.object []))⟩)
      = ⟨0, 0, 5, 0, 0, 0, 0⟩ := by
  decide

/-- C6, amended: a well-formed body that is neither a JSON object nor `null`
(an array, a string, a number, a boolean) fails to decode, and so does every
object that has a member whose name matches `result` and whose value is
neither an object nor `null`, whatever its other members; the scrape then
changes no gauge.  A body that is `null`, or an object none of whose member
names matches `result`, nested no deeper than the limit of 10000, decodes
without error to the zero-valued result: the scrape succeeds, sets `status` to
5 and the other six gauges to 0, and renders the metrics. -/
theorem unmarshal_envelope_shapes (g : Gauges) (code : Nat) (j : JSON) :
    ((∀ ms, j ≠ .object ms) → j ≠ .null →
      Unmarshal (.wellFormed j) RPCNodestateResponse.zero
        = .error (if maxNestingDepth < j.depth then .syntaxError else .typeError) ∧
      scrape g (.ok ⟨code, .ok (.wellFormed j)⟩) = g) ∧
    (∀ (ms : List (String × JSON)) (k : String) (x : JSON), j = .object ms → (k, x) ∈ ms →
      equalFold "result" k = true → (∀ xs, x ≠ .object xs) → x ≠ .null →
      (∃ e, Unmarshal (.wellFormed j) RPCNodestateResponse.zero = .error e) ∧
      scrape g (.ok ⟨code, .ok (.wellFormed j)⟩) = g) ∧
    ((j = .null ∨ ∃ ms, j = .object ms ∧ ∀ kv ∈ ms, equalFold "result" kv.1 = false) →
      j.depth ≤ maxNestingDepth →
      Unmarshal (.wellFormed j) RPCNodestateResponse.zero = .ok RPCNodestateResponse.zero ∧
      scrape g (.ok ⟨code, .ok (.wellFormed j)⟩) = ⟨0, 0, 5, 0, 0, 0, 0⟩ ∧
      Effect.serveHTTP ∈ handler (.ok ⟨code, .ok (.wellFormed j)⟩)) := by
  have hkeep : ∀ e, Unmarshal (.wellFormed j) RPCNodestateResponse.zero = .error e →
      scrape g (.ok ⟨code, .ok (.wellFormed j)⟩) = g := by
    intro e he
    unfold scrape
    rw [handler_decode_error code _ e he]
    rfl
  refine ⟨?_, ?_, ?_⟩
  · intro hobj hnull
    have h1 : Unmarshal (.wellFormed j) RPCNodestateResponse.zero
        = .error (if maxNestingDepth < j.depth then .syntaxError else .typeError) := by
      by_cases hd : maxNestingDepth < j.depth
      · rw [unmarshal_deep j _ hd, if_pos hd]
      · rw [if_neg hd]
        cases j with
        | null => exact absurd rfl hnull
        | object ms => exact absurd rfl (hobj ms)
        | bool b => rfl
        | number n => rfl
        | string x => rfl
        | array a =>
          unfold Unmarshal
          simp only [hd, if_false]
    exact ⟨h1, hkeep _ h1⟩
  · intro ms k x hj hmem hk hobj hnull
    have h1 : ∃ e, Unmarshal (.wellFormed j) RPCNodestateResponse.zero = .error e := by
      subst hj
      by_cases hd : maxNestingDepth < (JSON.object ms).depth
      · exact ⟨_, unmarshal_deep _ _ hd⟩
      · rw [unmarshal_object ms _ (not_lt.mp hd)]
        exact decodeEnvelope_bad_result _ [] ms k x hmem hk hobj hnull
    obtain ⟨e, he⟩ := h1
    exact ⟨⟨e, he⟩, hkeep e he⟩
  · intro h hdepth
    have h1 : Unmarshal (.wellFormed j) RPCNodestateResponse.zero
        = .ok RPCNodestateResponse.zero := by
      rcases h with rfl | ⟨ms, rfl, hms⟩
      · rfl
      · rw [unmarshal_object ms _ hdepth]
        exact decodeEnvelope_skip _ [] ms hms
    refine ⟨h1, ?_, ?_⟩
    · rw [scrape_ok g code _ _ h1]
      decide
    · rw [handler_ok code _ _ h1]
      simp

/-- The amended C6 at concrete bodies: the array `[1]` and the JSON-RPC reply
`{"jsonrpc":"2.0","result":"x","id":1}` are decode errors that keep the gauges
of the scrape before them, the object `{"error":"x"}` decodes and resets
them. -/
theorem unmarshal_envelope_shapes_witness :
    scrape (scrape Gauges.initial scenario1)
      (.ok ⟨200, .ok (.wellFormed (.array [.number (.integer 1)]))⟩)
      = scrape Gauges.initial scenario1 ∧
    scrape (scrape Gauges.initial scenario1)
      (.ok ⟨200, .ok (.wellFormed (.object [("jsonrpc", .string "2.0"),
        ("result", .string "x"), ("id", .number (.integer 1))]))⟩)
      = scrape Gauges.initial scenario1 ∧
    scrape (scrape Gauges.initial scenario1)
      (.ok ⟨200, .ok (.wellFormed (.object [("error", .string "x")]))⟩)
      = ⟨0, 0, 5, 0, 0, 0, 0⟩ :=
  ⟨((unmarshal_envelope_shapes (scrape Gauges.initial scenario1) 200
      (.array [.number (.integer 1)])).1
        (fun ms h => by cases h) (fun h => by cases h)).2,
   ((unmarshal_envelope_shapes (scrape Gauges.initial scenario1) 200
      (.object [("jsonrpc", .string "2.0"), ("result", .string "x"),
        ("id", .number (.integer 1))])).2.1
        _ "result" (.string "x") rfl (by simp) (by decide)
        (fun xs h => by cases h) (fun h => by cases h)).2,
   ((unmarshal_envelope_shapes (scrape Gauges.initial scenario1) 200
      (.object [("error", .string "x")])).2.2
        (Or.inr ⟨_, rfl, by decide⟩) (by decide)).2.1⟩

/-- C8 fails as stated: with `"status":"Ready"` and the extra member
`"STATUS":"Mining"` the decoded status is "Mining", so the extra member is not
ignored; and a counter given as the JSON number `9223372036854775808` or as
`1e2` makes the decoding fail, so the scrape changes no gauge. -/
theorem unmarshal_extra_member_overrides :
    decoded (.ok ⟨200, .ok (.wellFormed (.object [("result", .object
        [("status", .string "Ready"), ("STATUS", .string "Mining")])]))⟩)
      = some ⟨"Mining", 0, 0, 0, 0, 0, .nil⟩ ∧
    decoded (.ok ⟨200, .ok (.wellFormed (.object [("result", .object
        [("number_of_connected_peers", .number (.integer 9223372036854775808))])]))⟩)
      = none ∧
    decoded (.ok ⟨200, .ok (.wellFormed (.object [("result", .object
        [("latest_block_height", .number (.fractional "1e2"))])]))⟩)
      = none := by
  decide

/-- C8, amended: a body that is a JSON object with a `result` object, nested
no deeper than the limit of 10000, decodes without error when, in the `result`
object, every member with an expected name has the JSON type its field decodes
from (a string for `status`, an integer literal within the 64-bit range for a
counter, an array of strings for `connected_peers`), no name is repeated, and
no other member has a name that matches an expected name case-insensitively;
the envelope may carry other members that do not match `result`.  Each
expected member that is present is decoded to its given value, each missing
counter is 0, a missing `status` is the empty string and a missing
`connected_peers` is the empty (nil) list; the other members are ignored. -/
theorem unmarshal_tolerates_missing_and_extra (pre post ms : List (String × JSON))
    (hdepth : (JSON.object (pre ++ ("result", .object ms) :: post)).depth ≤ maxNestingDepth)
    (hpre : ∀ kv ∈ pre, equalFold "result" kv.1 = false)
    (hpost : ∀ kv ∈ post, equalFold "result" kv.1 = false)
    (hkeys : ∀ kv ∈ ms, kv.1 ∈ Field.all.map Field.tag ∨ fieldFor kv.1 = none)
    (htyped : ∀ kv ∈ ms, ∀ f ∈ Field.all, kv.1 = f.tag → wellTyped f kv.2 = true)
    (hnodup : (ms.map Prod.fst).Nodup) :
    Unmarshal (.wellFormed (.object (pre ++ ("result", .object ms) :: post)))
        RPCNodestateResponse.zero
      = .ok ⟨{ Status := pickString (ms.lookup "status") ""
               LatestBlockHeight := pickInt (ms.lookup "latest_block_height") 0
               LatestCumulativeWeight := pickInt (ms.lookup "latest_cumulative_weight") 0
               NumberOfConnectedPeers := pickInt (ms.lookup "number_of_connected_peers") 0
               NumberOfCandidatePeers := pickInt (ms.lookup "number_of_candidate_peers") 0
               NumberOfConnectedSyncNodes :=
                 pickInt (ms.lookup "number_of_connected_sync_nodes") 0
               ConnectedPeers := pickPeers (ms.lookup "connected_peers") .nil }⟩ := by
  have hfold : equalFold "result" "result" = true := by decide
  rw [unmarshal_object _ _ hdepth, decodeEnvelope_append_skip _ [] pre _ hpre]
  simp only [decodeEnvelope, hfold, if_true]
  obtain ⟨sp, hsp⟩ := decodeMembers_expected NodestateResult.zero [] ms hkeys htyped hnodup
  have hdec : decodeNodestateResult RPCNodestateResponse.zero.Result [] (.object ms)
      = .ok (expected NodestateResult.zero ms, sp) := hsp
  rw [hdec]
  simp only
  rw [decodeEnvelope_skip _ sp post hpost]
  rfl

/-- The amended C8 at a concrete body: `status` and `latest_block_height` are
present, the unknown members `peer_id` and `id` are present, the other five
expected members are missing. -/
theorem unmarshal_tolerates_missing_and_extra_witness :
    Unmarshal (.wellFormed (.object ([("id", .string "documentation")] ++
        ("result", .object [("status", .string "Mining"), ("peer_id", .number (.integer 7)),
          ("latest_block_height", .number (.integer 42))]) :: [])))
        RPCNodestateResponse.zero
      = .ok ⟨⟨"Mining", 42, 0, 0, 0, 0, .nil⟩⟩ :=
  unmarshal_tolerates_missing_and_extra [("id", .string "documentation")] []
    [("status", .string "Mining"), ("peer_id", .number (.integer 7)),
      ("latest_block_height", .number (.integer 42))]
    (by decide) (by decide) (by decide) (by decide) (by decide) (by decide)

end AleoRPC2Prometheus
